import Mathlib

/-
Verification of the phototripper geo-clustering and place-scoring core
(scripts/_tripper/common.py, scripts/_tripper/picture.py,
scripts/_tripper/location.py and the cluster-assignment loop of
scripts/phototripper.py), shallowly embedded over the reals.

Python floats are modelled as real numbers.  The global Context singleton is
replaced by an explicit search-radius parameter.  Python division, which
raises ZeroDivisionError on a zero denominator, is modelled by an
Option-valued division where error paths matter.  The Monte Carlo sample of
the intersection analysis is modelled by an arbitrary sampled count passed in
as a parameter (the source draws it from an unseeded process-wide random
source).
-/

namespace PyScripts

/-- Latitude/longitude pair in decimal degrees, as the source's 2-tuples. -/
abbrev LatLon : Type := ℝ × ℝ

/-- common.py: EARTH_RADIUS = 6371000. -/
def EARTH_RADIUS : ℝ := 6371000

/-- math.radians: degrees to radians. -/
noncomputable def deg2rad (x : ℝ) : ℝ := x * (Real.pi / 180)

/-- common.py: haversine(latlon1, latlon2), the great-circle distance in
meters between two latitude/longitude pairs. -/
noncomputable def haversine (p q : LatLon) : ℝ :=
  let d_lat := deg2rad (q.1 - p.1)
  let d_lon := deg2rad (q.2 - p.2)
  let a := Real.sin (d_lat / 2) ^ 2 +
    Real.cos (deg2rad p.1) * Real.cos (deg2rad q.1) * Real.sin (d_lon / 2) ^ 2
  2 * EARTH_RADIUS * Real.arcsin (Real.sqrt a)

/-- picture.py PictureInfo, restricted to the attributes the clustering
reads: the file path (identity: eq and hash go by file) and the
GPS latitude/longitude pair. -/
structure PictureInfo where
  file : String
  latlon : LatLon

/-- picture.py PictureCluster state: name, running center, statistical
radius, and the member set (a Python set of PictureInfo, i.e. no two
members share a file path). -/
structure PictureCluster where
  name : String
  center : LatLon
  radius : ℝ
  pictures : List PictureInfo

/-- Python set.add on the member set: a no-op when a picture with the same
file path is already present, since PictureInfo eq/hash go by file. -/
def picSetAdd (l : List PictureInfo) (p : PictureInfo) : List PictureInfo :=
  if l.any fun q => q.file == p.file then l else l ++ [p]

/-- The reduce lambda of add_picture: componentwise pair addition. -/
def pairAdd (a b : LatLon) : LatLon := (a.1 + b.1, a.2 + b.2)

/-- functools.reduce(pairAdd, l): fold of the tail starting from the head.
The empty case never arises in add_picture (the member set just received a
picture); reduce would raise there, we return (0, 0). -/
def reduceAdd : List LatLon → LatLon
  | [] => (0, 0)
  | h :: t => t.foldl pairAdd h

/-- add_picture's new center: the reduce-sum of the members' coordinates
divided componentwise by the member count. -/
noncomputable def clusterCenter (pics : List PictureInfo) : LatLon :=
  let s := reduceAdd (pics.map fun p => p.latlon)
  (s.1 / (pics.length : ℝ), s.2 / (pics.length : ℝ))

/-- add_picture's new radius: search_radius / 10 for a single member, else
mean member distance to the new center plus twice the population standard
deviation of those distances. -/
noncomputable def clusterRadius (search_radius : ℝ) (pics : List PictureInfo)
    (center : LatLon) : ℝ :=
  if pics.length = 1 then search_radius / 10
  else
    let ds := pics.map fun p => haversine center p.latlon
    let avg_dist := ds.sum / (ds.length : ℝ)
    let variance := (ds.map fun d => (d - avg_dist) ^ 2).sum / (ds.length : ℝ)
    avg_dist + 2 * Real.sqrt variance

/-- picture.py PictureCluster.add_picture: insert the picture into the member
set, then recompute the center and, from the new center, the radius. -/
noncomputable def add_picture (search_radius : ℝ) (c : PictureCluster)
    (p : PictureInfo) : PictureCluster :=
  let pics := picSetAdd c.pictures p
  let ctr := clusterCenter pics
  { c with pictures := pics, center := ctr,
           radius := clusterRadius search_radius pics ctr }

/-- picture.py PictureCluster.is_in_range: the picture's haversine distance
to the cluster center is strictly below the larger of the configured search
radius and the cluster's current radius. -/
def is_in_range (search_radius : ℝ) (c : PictureCluster) (p : PictureInfo) : Prop :=
  haversine p.latlon c.center < max search_radius c.radius

@[simp] theorem add_picture_pictures (sr : ℝ) (c : PictureCluster) (p : PictureInfo) :
    (add_picture sr c p).pictures = picSetAdd c.pictures p := rfl

@[simp] theorem add_picture_center (sr : ℝ) (c : PictureCluster) (p : PictureInfo) :
    (add_picture sr c p).center = clusterCenter (picSetAdd c.pictures p) := rfl

@[simp] theorem add_picture_radius (sr : ℝ) (c : PictureCluster) (p : PictureInfo) :
    (add_picture sr c p).radius =
      clusterRadius sr (picSetAdd c.pictures p) (clusterCenter (picSetAdd c.pictures p)) := rfl

theorem picSetAdd_ne_nil (l : List PictureInfo) (p : PictureInfo) :
    picSetAdd l p ≠ [] := by
  unfold picSetAdd
  split
  · rename_i h
    intro hnil
    subst hnil
    simp at h
  · simp

theorem foldl_pairAdd (t : List LatLon) (h : LatLon) :
    t.foldl pairAdd h = (h.1 + (t.map Prod.fst).sum, h.2 + (t.map Prod.snd).sum) := by
  induction t generalizing h with
  | nil => simp
  | cons a t ih =>
    simp only [List.foldl_cons, ih, pairAdd, List.map_cons, List.sum_cons]
    rw [Prod.mk.injEq]
    constructor <;> ring

theorem reduceAdd_eq_sum (h : LatLon) (t : List LatLon) :
    reduceAdd (h :: t) = (((h :: t).map Prod.fst).sum, ((h :: t).map Prod.snd).sum) := by
  simp only [reduceAdd, foldl_pairAdd, List.map_cons, List.sum_cons]

/-- C4: after every add operation the cluster's center is the unweighted
arithmetic mean of all current members' coordinates, latitude and longitude
averaged independently.  add_picture is the only operation that touches the
cluster's state, so the invariant is recomputed (and hence preserved) by
every mutation. -/
theorem add_picture_center_is_mean (sr : ℝ) (c : PictureCluster) (p : PictureInfo) :
    (add_picture sr c p).center =
      (((add_picture sr c p).pictures.map fun q => q.latlon.1).sum /
         ((add_picture sr c p).pictures.length : ℝ),
       ((add_picture sr c p).pictures.map fun q => q.latlon.2).sum /
         ((add_picture sr c p).pictures.length : ℝ)) := by
  simp only [add_picture_pictures, add_picture_center]
  obtain ⟨h, t, ht⟩ : ∃ h t, picSetAdd c.pictures p = h :: t := by
    rcases hps : picSetAdd c.pictures p with _ | ⟨h, t⟩
    · exact absurd hps (picSetAdd_ne_nil c.pictures p)
    · exact ⟨h, t, rfl⟩
  rw [ht]
  unfold clusterCenter
  rw [List.map_cons, reduceAdd_eq_sum]
  simp [List.map_map, Function.comp_def]

theorem haversine_comm (p q : LatLon) : haversine p q = haversine q p := by
  have hs : ∀ x : ℝ, Real.sin (-x / 2) ^ 2 = Real.sin (x / 2) ^ 2 := by
    intro x
    rw [show -x / 2 = -(x / 2) by ring, Real.sin_neg]
    ring
  simp only [haversine]
  have e1 : deg2rad (q.1 - p.1) = -(deg2rad (p.1 - q.1)) := by unfold deg2rad; ring
  have e2 : deg2rad (q.2 - p.2) = -(deg2rad (p.2 - q.2)) := by unfold deg2rad; ring
  rw [e1, e2, hs, hs]
  ring_nf

/-- C3: after every add operation, a one-member cluster's radius is the
configured search radius divided by 10, and a cluster with two or more
members has radius mean(distances) + 2 * population standard deviation of
the members' haversine distances to the new center. -/
theorem add_picture_radius_formula (sr : ℝ) (c : PictureCluster) (p : PictureInfo) :
    let cl := add_picture sr c p
    let ds := cl.pictures.map fun q => haversine cl.center q.latlon
    let m := ds.sum / (ds.length : ℝ)
    (cl.pictures.length = 1 → cl.radius = sr / 10) ∧
    (2 ≤ cl.pictures.length →
      cl.radius = m + 2 * Real.sqrt ((ds.map fun d => (d - m) ^ 2).sum / (ds.length : ℝ))) := by
  intro cl ds m
  unfold m ds cl
  simp only [add_picture_pictures, add_picture_center, add_picture_radius]
  constructor
  · intro h1
    unfold clusterRadius
    rw [if_pos h1]
  · intro h2
    unfold clusterRadius
    rw [if_neg (by omega)]

/-- A cluster state is consistent when its stored center and radius are the
ones add_picture recomputes from its current member set; every cluster the
program builds has this shape, since add_picture recomputes both fields. -/
def Consistent (sr : ℝ) (c : PictureCluster) : Prop :=
  c.center = clusterCenter c.pictures ∧
  c.radius = clusterRadius sr c.pictures (clusterCenter c.pictures)

theorem picSetAdd_mem (l : List PictureInfo) (p : PictureInfo)
    (h : ∃ q ∈ l, q.file = p.file) : picSetAdd l p = l := by
  unfold picSetAdd
  rw [if_pos]
  obtain ⟨q, hq, hf⟩ := h
  exact List.any_eq_true.mpr ⟨q, hq, beq_iff_eq.mpr hf⟩

/-- Every add_picture leaves the cluster consistent. -/
theorem add_picture_consistent (sr : ℝ) (c : PictureCluster) (p : PictureInfo) :
    Consistent sr (add_picture sr c p) := by
  constructor <;> simp

/-- C10: adding a picture that is already a member (pictures compare equal
by file path) leaves the member set, the center and the radius of a
consistent cluster unchanged, so add is idempotent. -/
theorem add_picture_idempotent (sr : ℝ) (c : PictureCluster) (p : PictureInfo)
    (hc : Consistent sr c) (hp : ∃ q ∈ c.pictures, q.file = p.file) :
    add_picture sr c p = c := by
  obtain ⟨hcen, hrad⟩ := hc
  unfold add_picture
  rw [picSetAdd_mem c.pictures p hp]
  simp only [← hrad]
  simp only [← hcen]

theorem add_picture_idempotent_witness :
    add_picture 10
      { name := "cluster1", center := ((2 : ℝ), (3 : ℝ)), radius := 1,
        pictures := [{ file := "a.jpg", latlon := ((2 : ℝ), (3 : ℝ)) }] }
      { file := "a.jpg", latlon := ((2 : ℝ), (3 : ℝ)) } =
    { name := "cluster1", center := ((2 : ℝ), (3 : ℝ)), radius := 1,
      pictures := [{ file := "a.jpg", latlon := ((2 : ℝ), (3 : ℝ)) }] } := by
  apply add_picture_idempotent
  · constructor
    · simp [clusterCenter, reduceAdd]
    · simp [clusterRadius]
  · exact ⟨_, List.mem_singleton.mpr rfl, rfl⟩

/-- phototripper.py collect(): the name given to a freshly created cluster,
built from the number of clusters so far plus one. -/
def clusterName (n : ℕ) : String := "cluster" ++ toString n

/-- PictureCluster.__init__ with a first picture: a fresh empty cluster
(center (0, 0), radius 0, no members) immediately given its first member
through add_picture. -/
noncomputable def newCluster (sr : ℝ) (name : String) (p : PictureInfo) : PictureCluster :=
  add_picture sr { name := name, center := ((0 : ℝ), (0 : ℝ)), radius := 0, pictures := [] } p

open Classical in
/-- The for-loop of phototripper.py add_picture_file: walk the clusters in
creation order and add the picture to the first one in range (none when no
cluster is in range). -/
noncomputable def assignToFirst (sr : ℝ) (p : PictureInfo) :
    List PictureCluster → Option (List PictureCluster)
  | [] => none
  | c :: rest =>
    if is_in_range sr c p then some (add_picture sr c p :: rest)
    else (assignToFirst sr p rest).map fun l => c :: l

/-- phototripper.py add_picture_file, clustering part: first-fit assignment;
when no existing cluster is in range, append a fresh cluster holding only
this picture. -/
noncomputable def assignPicture (sr : ℝ) (clusters : List PictureCluster)
    (p : PictureInfo) : List PictureCluster :=
  match assignToFirst sr p clusters with
  | some cs => cs
  | none => clusters ++ [newCluster sr (clusterName (clusters.length + 1)) p]

theorem assignToFirst_characterization (sr : ℝ) (p : PictureInfo) :
    ∀ clusters : List PictureCluster,
      (assignToFirst sr p clusters = none ∧ ∀ c ∈ clusters, ¬ is_in_range sr c p) ∨
      (∃ pre c post, clusters = pre ++ c :: post ∧
        (∀ c' ∈ pre, ¬ is_in_range sr c' p) ∧ is_in_range sr c p ∧
        assignToFirst sr p clusters = some (pre ++ add_picture sr c p :: post)) := by
  intro clusters
  induction clusters with
  | nil => exact Or.inl ⟨rfl, by simp⟩
  | cons c rest ih =>
    by_cases h : is_in_range sr c p
    · exact Or.inr ⟨[], c, rest, by simp, by simp, h, by simp [assignToFirst, if_pos h]⟩
    · rcases ih with ⟨hnone, hall⟩ | ⟨pre, c0, post, heq, hpre, hc0, hsome⟩
      · refine Or.inl ⟨by simp [assignToFirst, if_neg h, hnone], ?_⟩
        intro c' hc'
        rcases List.mem_cons.mp hc' with rfl | hm
        · exact h
        · exact hall c' hm
      · refine Or.inr ⟨c :: pre, c0, post, by simp [heq], ?_, hc0, ?_⟩
        · intro c' hc'
          rcases List.mem_cons.mp hc' with rfl | hm
          · exact h
          · exact hpre c' hm
        · simp [assignToFirst, if_neg h, hsome]

/-- C1: each geotagged picture goes to the first existing cluster, in
creation order, that is in range, where in range means that the haversine
distance between the cluster center and the picture location is strictly
below the larger of the configured search radius and the cluster's own
radius; when no existing cluster is in range a new cluster containing only
this picture is appended (first-fit, not best-fit). -/
theorem cluster_assignment_first_fit (sr : ℝ) (clusters : List PictureCluster)
    (p : PictureInfo) :
    (∀ c : PictureCluster, is_in_range sr c p ↔ haversine c.center p.latlon < max sr c.radius) ∧
    ((∃ pre c post, clusters = pre ++ c :: post ∧
        (∀ c' ∈ pre, ¬ is_in_range sr c' p) ∧ is_in_range sr c p ∧
        assignPicture sr clusters p = pre ++ add_picture sr c p :: post) ∨
      ((∀ c ∈ clusters, ¬ is_in_range sr c p) ∧
        assignPicture sr clusters p =
          clusters ++ [newCluster sr (clusterName (clusters.length + 1)) p] ∧
        (newCluster sr (clusterName (clusters.length + 1)) p).pictures = [p])) := by
  constructor
  · intro c
    unfold is_in_range
    rw [haversine_comm]
  · rcases assignToFirst_characterization sr p clusters with ⟨hnone, hall⟩ |
      ⟨pre, c0, post, heq, hpre, hc0, hsome⟩
    · refine Or.inr ⟨hall, ?_, ?_⟩
      · unfold assignPicture
        rw [hnone]
      · simp [newCluster, picSetAdd]
    · exact Or.inl ⟨pre, c0, post, heq, hpre, hc0, by unfold assignPicture; rw [hsome]⟩

/-- location.py _rect_area(sw, ne): height is haversine(sw, ne) (note: the
diagonal of the rectangle, as the source computes it), width is the
haversine distance at the mid latitude between the two longitudes; the area
is height times width. -/
noncomputable def rect_area (sw ne : LatLon) : ℝ :=
  let height := haversine sw ne
  let mid_lat := (sw.1 + ne.1) / 2
  let width := haversine (mid_lat, sw.2) (mid_lat, ne.2)
  height * width

/-- The containment statuses of _IntersectionAnalysis. -/
inductive IStatus where
  | rect_inside_circle
  | circle_inside_rect
  | not_intersecting
  | intersecting

/-- The four rectangle corners in the order the source lists them:
SW, SE, NE, NW. -/
def rectCorners (rect_ne rect_sw : LatLon) : List LatLon :=
  [rect_sw, (rect_sw.1, rect_ne.2), rect_ne, (rect_ne.1, rect_sw.2)]

/-- Part A, check 1: every rectangle corner is within the circle radius of
the circle center. -/
def rect_inside_circle_cond (circle_c : LatLon) (circle_r : ℝ) (rect_ne rect_sw : LatLon) : Prop :=
  ∀ x ∈ rectCorners rect_ne rect_sw, haversine circle_c x ≤ circle_r

/-- The circle center falls within the rectangle's latitude/longitude
bounds. -/
def center_in_rect_cond (circle_c : LatLon) (rect_ne rect_sw : LatLon) : Prop :=
  (rect_sw.1 ≤ circle_c.1 ∧ circle_c.1 ≤ rect_ne.1) ∧
  (rect_sw.2 ≤ circle_c.2 ∧ circle_c.2 ≤ rect_ne.2)

/-- Part A, check 2: the center is inside the rectangle bounds and the least
of the four edge distances (top, bottom, left, right, folded left to right
as Python's min does) is at least the radius. -/
def circle_inside_rect_cond (circle_c : LatLon) (circle_r : ℝ) (rect_ne rect_sw : LatLon) : Prop :=
  center_in_rect_cond circle_c rect_ne rect_sw ∧
  min (min (min (haversine circle_c (rect_ne.1, circle_c.2))
                (haversine circle_c (rect_sw.1, circle_c.2)))
           (haversine circle_c (circle_c.1, rect_sw.2)))
      (haversine circle_c (circle_c.1, rect_ne.2)) ≥ circle_r

/-- The rectangle center: the simple midpoint of the SW and NE corners. -/
noncomputable def rect_center (rect_ne rect_sw : LatLon) : LatLon :=
  ((rect_sw.1 + rect_ne.1) / 2, (rect_sw.2 + rect_ne.2) / 2)

/-- The state _IntersectionAnalysis.__init__ stores. -/
structure IAnalysis where
  circle_center : LatLon
  circle_radius : ℝ
  distance_to_center : ℝ
  status : IStatus
  circle_area : ℝ
  rect_area : ℝ
  smaller_shape_area : ℝ
  bigger_shape_area : ℝ
  intersection_area : ℝ

open Classical in
/-- location.py _IntersectionAnalysis.__init__ for a circle (center, radius)
and a rectangle (NE, SW corners).  The Monte Carlo draw of 1000 uniform
points is nondeterministic in the source (unseeded process-wide random), so
the number of sampled points that fell within the circle enters here as the
parameter sampled; the source's fix-up (count forced to 1 when the circle
is inside the rectangle and no sample hit) is applied to it. -/
noncomputable def mkAnalysis (circle_c : LatLon) (circle_r : ℝ)
    (rect_ne rect_sw : LatLon) (sampled : ℕ) : IAnalysis :=
  let d := haversine circle_c (rect_center rect_ne rect_sw)
  let ric := rect_inside_circle_cond circle_c circle_r rect_ne rect_sw
  let cir := circle_inside_rect_cond circle_c circle_r rect_ne rect_sw
  let status := if ric then IStatus.rect_inside_circle
    else if cir then IStatus.circle_inside_rect
    else if d > circle_r then IStatus.not_intersecting
    else IStatus.intersecting
  let circle_area := Real.pi * circle_r ^ 2
  let ra := rect_area rect_sw rect_ne
  let points_in_circle : ℕ := if cir ∧ sampled = 0 then 1 else sampled
  { circle_center := circle_c
    circle_radius := circle_r
    distance_to_center := d
    status := status
    circle_area := circle_area
    rect_area := ra
    smaller_shape_area := min circle_area ra
    bigger_shape_area := max circle_area ra
    intersection_area := ((points_in_circle : ℝ) / 1000) * ra }

@[simp] theorem mkAnalysis_distance (circle_c : LatLon) (circle_r : ℝ)
    (rect_ne rect_sw : LatLon) (sampled : ℕ) :
    (mkAnalysis circle_c circle_r rect_ne rect_sw sampled).distance_to_center =
      haversine circle_c (rect_center rect_ne rect_sw) := rfl

@[simp] theorem mkAnalysis_circle_radius (circle_c : LatLon) (circle_r : ℝ)
    (rect_ne rect_sw : LatLon) (sampled : ℕ) :
    (mkAnalysis circle_c circle_r rect_ne rect_sw sampled).circle_radius = circle_r := rfl

@[simp] theorem mkAnalysis_circle_area (circle_c : LatLon) (circle_r : ℝ)
    (rect_ne rect_sw : LatLon) (sampled : ℕ) :
    (mkAnalysis circle_c circle_r rect_ne rect_sw sampled).circle_area =
      Real.pi * circle_r ^ 2 := rfl

@[simp] theorem mkAnalysis_smaller (circle_c : LatLon) (circle_r : ℝ)
    (rect_ne rect_sw : LatLon) (sampled : ℕ) :
    (mkAnalysis circle_c circle_r rect_ne rect_sw sampled).smaller_shape_area =
      min (Real.pi * circle_r ^ 2) (rect_area rect_sw rect_ne) := rfl

open Classical in
theorem mkAnalysis_status (circle_c : LatLon) (circle_r : ℝ)
    (rect_ne rect_sw : LatLon) (sampled : ℕ) :
    (mkAnalysis circle_c circle_r rect_ne rect_sw sampled).status =
      (if rect_inside_circle_cond circle_c circle_r rect_ne rect_sw then
        IStatus.rect_inside_circle
      else if circle_inside_rect_cond circle_c circle_r rect_ne rect_sw then
        IStatus.circle_inside_rect
      else if haversine circle_c (rect_center rect_ne rect_sw) > circle_r then
        IStatus.not_intersecting
      else IStatus.intersecting) := rfl

/-- C5: the intersection analysis assigns exactly one of the four statuses,
testing rect-inside-circle, then circle-inside-rect, then not-intersecting
(distance above radius), with intersecting as the final default: the first
matching condition wins, and the classification is exhaustive. -/
theorem status_classification (circle_c : LatLon) (circle_r : ℝ)
    (rect_ne rect_sw : LatLon) (sampled : ℕ) :
    let A := mkAnalysis circle_c circle_r rect_ne rect_sw sampled
    let ric := rect_inside_circle_cond circle_c circle_r rect_ne rect_sw
    let cir := circle_inside_rect_cond circle_c circle_r rect_ne rect_sw
    (A.status = IStatus.rect_inside_circle ∨ A.status = IStatus.circle_inside_rect ∨
      A.status = IStatus.not_intersecting ∨ A.status = IStatus.intersecting) ∧
    (A.status = IStatus.rect_inside_circle ↔ ric) ∧
    (A.status = IStatus.circle_inside_rect ↔ ¬ric ∧ cir) ∧
    (A.status = IStatus.not_intersecting ↔ ¬ric ∧ ¬cir ∧ A.distance_to_center > circle_r) ∧
    (A.status = IStatus.intersecting ↔ ¬ric ∧ ¬cir ∧ ¬(A.distance_to_center > circle_r)) := by
  intro A ric cir
  unfold A ric cir
  rw [mkAnalysis_status, mkAnalysis_distance]
  split_ifs with h1 h2 h3 <;> simp_all

theorem haversine_self (p : LatLon) : haversine p p = 0 := by
  simp only [haversine]
  have e : deg2rad (p.1 - p.1) / 2 = 0 := by unfold deg2rad; ring
  have e2 : deg2rad (p.2 - p.2) / 2 = 0 := by unfold deg2rad; ring
  rw [e, e2]
  simp

theorem haversine_pos (p q : LatLon)
    (h : 0 < Real.sin (deg2rad (q.1 - p.1) / 2) ^ 2 +
      Real.cos (deg2rad p.1) * Real.cos (deg2rad q.1) *
        Real.sin (deg2rad (q.2 - p.2) / 2) ^ 2) :
    0 < haversine p q := by
  simp only [haversine]
  apply mul_pos
  · norm_num [EARTH_RADIUS]
  · exact Real.arcsin_pos.mpr (Real.sqrt_pos.mpr h)

theorem haversine_equator_quarter_pos :
    0 < haversine ((0 : ℝ), (0 : ℝ)) ((0 : ℝ), (90 : ℝ)) := by
  apply haversine_pos
  simp only [deg2rad]
  have e1 : ((0 : ℝ) - 0) * (Real.pi / 180) / 2 = 0 := by ring
  have e2 : ((90 : ℝ) - 0) * (Real.pi / 180) / 2 = Real.pi / 4 := by ring
  have e3 : (0 : ℝ) * (Real.pi / 180) = 0 := by ring
  rw [e1, e2, e3]
  have hs : 0 < Real.sin (Real.pi / 4) :=
    Real.sin_pos_of_pos_of_lt_pi (by positivity) (by nlinarith [Real.pi_pos])
  simp only [Real.sin_zero, Real.cos_zero]
  nlinarith [hs]

/-- Modelled from the spec, section 4.1 rectangleArea (which matches the
source's own comment, not its code): height is the distance from SW to the
point (NE latitude, SW longitude), width the distance at the rectangle's
mid latitude between the two longitudes, area their product. -/
noncomputable def rectangleArea_spec (sw ne : LatLon) : ℝ :=
  let height := haversine sw (ne.1, sw.2)
  let mid_lat := (sw.1 + ne.1) / 2
  let width := haversine (mid_lat, sw.2) (mid_lat, ne.2)
  height * width

/-- C2: _rect_area computes its height as haversine(sw, ne), the rectangle's
diagonal, although its own comment and the spec describe the distance from
the SW latitude to the NE latitude along the SW longitude: at sw = (0, 0),
ne = (0, 90), a zero-height strip of the equator, the documented formula
yields area 0 while the code yields a positive area. -/
theorem rect_area_uses_diagonal_height :
    rect_area ((0 : ℝ), (0 : ℝ)) ((0 : ℝ), (90 : ℝ)) ≠
      rectangleArea_spec ((0 : ℝ), (0 : ℝ)) ((0 : ℝ), (90 : ℝ)) ∧
    rectangleArea_spec ((0 : ℝ), (0 : ℝ)) ((0 : ℝ), (90 : ℝ)) = 0 ∧
    0 < rect_area ((0 : ℝ), (0 : ℝ)) ((0 : ℝ), (90 : ℝ)) := by
  have hspec : rectangleArea_spec ((0 : ℝ), (0 : ℝ)) ((0 : ℝ), (90 : ℝ)) = 0 := by
    simp only [rectangleArea_spec]
    rw [haversine_self]
    ring
  have hcode : 0 < rect_area ((0 : ℝ), (0 : ℝ)) ((0 : ℝ), (90 : ℝ)) := by
    simp only [rect_area]
    have e : ((0 : ℝ) + 0) / 2 = 0 := by ring
    rw [e]
    exact mul_pos haversine_equator_quarter_pos haversine_equator_quarter_pos
  exact ⟨by rw [hspec]; exact ne_of_gt hcode, hspec, hcode⟩

/-- Python float division: raises ZeroDivisionError on a zero denominator,
modelled as none. -/
noncomputable def pydiv (x y : ℝ) : Option ℝ :=
  if y = 0 then none else some (x / y)

open Classical in
/-- location.py _IntersectionAnalysis.get_size_ratio: intersection over
circle area while intersecting; zero when not intersecting or the smaller
area is zero; else bigger over smaller area. -/
noncomputable def get_size_ratio (A : IAnalysis) : Option ℝ :=
  if A.status = IStatus.intersecting then
    pydiv A.intersection_area A.circle_area
  else if A.status = IStatus.not_intersecting ∨ A.smaller_shape_area = 0 then
    some 0
  else
    pydiv A.bigger_shape_area A.smaller_shape_area

open Classical in
/-- location.py _IntersectionAnalysis.get_size_factor: 0 for ratio 0, the
ratio itself when at most 1, else its reciprocal. -/
noncomputable def get_size_factor (A : IAnalysis) : Option ℝ :=
  (get_size_ratio A).map fun ratio =>
    if ratio = 0 then 0 else if ratio ≤ 1 then ratio else 1 / ratio

open Classical in
/-- location.py _IntersectionAnalysis.get_center_factor with
min_score_at_radius = 0.5: exactly 1.0 at distance zero; otherwise sigma is
sqrt of (radius/2)^2 / (-2 ln(1/2)) and the result is
1 + exp(-(distance^2) / (2 sigma^2)), except that a zero 2 sigma^2 is
special-cased to 0 instead of dividing. -/
noncomputable def get_center_factor (A : IAnalysis) : Option ℝ :=
  if A.distance_to_center = 0 then some 1
  else
    (pydiv ((A.circle_radius / 2) ^ 2) ((-2) * Real.log (1 / 2))).bind fun sq =>
      if 2 * Real.sqrt sq ^ 2 ≠ 0 then
        (pydiv (-(A.distance_to_center ^ 2)) (2 * Real.sqrt sq ^ 2)).map fun e =>
          1 + Real.exp e
      else some 0

theorem log_half_neg : Real.log (1 / 2) < 0 := Real.log_neg (by norm_num) (by norm_num)

theorem sigma_denom_pos : (0 : ℝ) < (-2) * Real.log (1 / 2) := by
  nlinarith [log_half_neg]

/-- C6 (amended): for a circle of nonzero radius, get_center_factor returns
exactly 1 when the distance to the rectangle center is zero, and otherwise
returns 1 + exp(-(distance^2)/(2 sigma^2)) with
sigma = sqrt((radius/2)^2 / (-2 ln(1/2))), a value in (1, 2]; with a zero
radius the zero-sigma special case yields 0 instead. -/
theorem center_factor_formula (circle_c : LatLon) (circle_r : ℝ)
    (rect_ne rect_sw : LatLon) (sampled : ℕ) (hr : circle_r ≠ 0) :
    ((mkAnalysis circle_c circle_r rect_ne rect_sw sampled).distance_to_center = 0 →
      get_center_factor (mkAnalysis circle_c circle_r rect_ne rect_sw sampled) = some 1) ∧
    ((mkAnalysis circle_c circle_r rect_ne rect_sw sampled).distance_to_center ≠ 0 →
      ∃ v, get_center_factor (mkAnalysis circle_c circle_r rect_ne rect_sw sampled) = some v ∧
        v = 1 + Real.exp
          (-((mkAnalysis circle_c circle_r rect_ne rect_sw sampled).distance_to_center ^ 2) /
            (2 * Real.sqrt ((circle_r / 2) ^ 2 / ((-2) * Real.log (1 / 2))) ^ 2)) ∧
        1 < v ∧ v ≤ 2) := by
  have hsq : (0 : ℝ) < (circle_r / 2) ^ 2 / ((-2) * Real.log (1 / 2)) := by
    apply div_pos _ sigma_denom_pos
    apply pow_two_pos_of_ne_zero
    intro h
    exact hr (by linarith)
  have hsig : 0 < Real.sqrt ((circle_r / 2) ^ 2 / ((-2) * Real.log (1 / 2))) :=
    Real.sqrt_pos.mpr hsq
  have hsig2 : (0 : ℝ) < 2 * Real.sqrt ((circle_r / 2) ^ 2 / ((-2) * Real.log (1 / 2))) ^ 2 := by
    positivity
  constructor
  · intro hd
    simp only [get_center_factor, if_pos hd]
  · intro hd
    refine ⟨_, ?_, rfl, ?_, ?_⟩
    · simp only [get_center_factor, if_neg hd, pydiv, if_neg (ne_of_gt sigma_denom_pos),
        Option.some_bind, mkAnalysis_circle_radius]
      rw [if_pos (ne_of_gt hsig2), if_neg (ne_of_gt hsig2)]
      rfl
    · have hdd : 0 <
          (mkAnalysis circle_c circle_r rect_ne rect_sw sampled).distance_to_center ^ 2 :=
        pow_two_pos_of_ne_zero hd
      have := Real.exp_pos
        (-((mkAnalysis circle_c circle_r rect_ne rect_sw sampled).distance_to_center ^ 2) /
          (2 * Real.sqrt ((circle_r / 2) ^ 2 / ((-2) * Real.log (1 / 2))) ^ 2))
      linarith
    · have hdd : 0 <
          (mkAnalysis circle_c circle_r rect_ne rect_sw sampled).distance_to_center ^ 2 :=
        pow_two_pos_of_ne_zero hd
      have harg :
          -((mkAnalysis circle_c circle_r rect_ne rect_sw sampled).distance_to_center ^ 2) /
            (2 * Real.sqrt ((circle_r / 2) ^ 2 / ((-2) * Real.log (1 / 2))) ^ 2) < 0 :=
        div_neg_of_neg_of_pos (by linarith) hsig2
      have := Real.exp_lt_one_iff.mpr harg
      linarith

theorem center_factor_formula_witness :
    ((mkAnalysis ((0 : ℝ), (0 : ℝ)) 1 ((0 : ℝ), (90 : ℝ)) ((0 : ℝ), (90 : ℝ))
        0).distance_to_center = 0 →
      get_center_factor
        (mkAnalysis ((0 : ℝ), (0 : ℝ)) 1 ((0 : ℝ), (90 : ℝ)) ((0 : ℝ), (90 : ℝ)) 0) = some 1) ∧
    ((mkAnalysis ((0 : ℝ), (0 : ℝ)) 1 ((0 : ℝ), (90 : ℝ)) ((0 : ℝ), (90 : ℝ))
        0).distance_to_center ≠ 0 →
      ∃ v, get_center_factor
          (mkAnalysis ((0 : ℝ), (0 : ℝ)) 1 ((0 : ℝ), (90 : ℝ)) ((0 : ℝ), (90 : ℝ)) 0) = some v ∧
        v = 1 + Real.exp
          (-((mkAnalysis ((0 : ℝ), (0 : ℝ)) 1 ((0 : ℝ), (90 : ℝ)) ((0 : ℝ), (90 : ℝ))
              0).distance_to_center ^ 2) /
            (2 * Real.sqrt (((1 : ℝ) / 2) ^ 2 / ((-2) * Real.log (1 / 2))) ^ 2)) ∧
        1 < v ∧ v ≤ 2) :=
  center_factor_formula ((0 : ℝ), (0 : ℝ)) 1 ((0 : ℝ), (90 : ℝ)) ((0 : ℝ), (90 : ℝ)) 0
    one_ne_zero

/-- The claim's formula and range for get_center_factor fail for a circle of
radius zero: there distance_to_center is nonzero, yet the zero-sigma branch
returns 0, which is neither 1 nor in (1, 2]. -/
theorem center_factor_zero_radius_cex :
    (mkAnalysis ((0 : ℝ), (0 : ℝ)) 0 ((0 : ℝ), (90 : ℝ)) ((0 : ℝ), (90 : ℝ))
      0).distance_to_center ≠ 0 ∧
    get_center_factor
      (mkAnalysis ((0 : ℝ), (0 : ℝ)) 0 ((0 : ℝ), (90 : ℝ)) ((0 : ℝ), (90 : ℝ)) 0) =
      some 0 ∧
    ¬ (1 : ℝ) < 0 := by
  have hrc : rect_center ((0 : ℝ), (90 : ℝ)) ((0 : ℝ), (90 : ℝ)) = ((0 : ℝ), (90 : ℝ)) := by
    simp only [rect_center]
    norm_num
  have hd : (mkAnalysis ((0 : ℝ), (0 : ℝ)) 0 ((0 : ℝ), (90 : ℝ)) ((0 : ℝ), (90 : ℝ))
      0).distance_to_center ≠ 0 := by
    rw [mkAnalysis_distance, hrc]
    exact ne_of_gt haversine_equator_quarter_pos
  refine ⟨hd, ?_, by norm_num⟩
  simp only [get_center_factor, if_neg hd, pydiv, if_neg (ne_of_gt sigma_denom_pos),
    Option.some_bind, mkAnalysis_circle_radius]
  have hzero : ((0 : ℝ) / 2) ^ 2 / ((-2) * Real.log (1 / 2)) = 0 := by norm_num
  rw [hzero, Real.sqrt_zero]
  norm_num

/-- C7 (amended): for every circle of nonzero radius, neither get_size_ratio
nor get_center_factor can hit a division by zero: the zero smaller-area and
zero-sigma denominators are special-cased, and the intersecting branch of
get_size_ratio divides by the circle area pi r^2, nonzero when r is. -/
theorem scoring_division_safety (circle_c : LatLon) (circle_r : ℝ)
    (rect_ne rect_sw : LatLon) (sampled : ℕ) (hr : circle_r ≠ 0) :
    (get_size_ratio (mkAnalysis circle_c circle_r rect_ne rect_sw sampled)).isSome = true ∧
    (get_center_factor (mkAnalysis circle_c circle_r rect_ne rect_sw sampled)).isSome = true := by
  have hca : (mkAnalysis circle_c circle_r rect_ne rect_sw sampled).circle_area ≠ 0 := by
    rw [mkAnalysis_circle_area]
    exact mul_ne_zero Real.pi_ne_zero (pow_ne_zero 2 hr)
  constructor
  · unfold get_size_ratio
    split_ifs with h1 h2
    · rw [pydiv, if_neg hca]
      rfl
    · rfl
    · rw [pydiv, if_neg (by tauto)]
      rfl
  · unfold get_center_factor
    split_ifs with h1
    · rfl
    · rw [pydiv, if_neg (ne_of_gt sigma_denom_pos), Option.some_bind]
      split_ifs with h2
      · rw [pydiv, if_neg h2]
        rfl
      · rfl

theorem scoring_division_safety_witness :
    (get_size_ratio
      (mkAnalysis ((0 : ℝ), (0 : ℝ)) 2 ((1 : ℝ), (1 : ℝ)) ((0 : ℝ), (0 : ℝ)) 5)).isSome = true ∧
    (get_center_factor
      (mkAnalysis ((0 : ℝ), (0 : ℝ)) 2 ((1 : ℝ), (1 : ℝ)) ((0 : ℝ), (0 : ℝ)) 5)).isSome = true :=
  scoring_division_safety ((0 : ℝ), (0 : ℝ)) 2 ((1 : ℝ), (1 : ℝ)) ((0 : ℝ), (0 : ℝ)) 5
    two_ne_zero

/-- The claim's guarantee that the intersecting branch of get_size_ratio is
never reached with a zero circle area fails for a zero-radius circle placed
at longitude -180 against a zero-width rectangle on the meridian 180: the
rectangle center is 360 degrees of longitude away, so the haversine distance
is 0 and the status is intersecting, yet circle_area = pi * 0^2 = 0 and the
division raises. -/
theorem size_ratio_division_by_zero_cex :
    (mkAnalysis ((0 : ℝ), (-180 : ℝ)) 0 ((1 : ℝ), (180 : ℝ)) ((-1 : ℝ), (180 : ℝ))
      0).status = IStatus.intersecting ∧
    (mkAnalysis ((0 : ℝ), (-180 : ℝ)) 0 ((1 : ℝ), (180 : ℝ)) ((-1 : ℝ), (180 : ℝ))
      0).circle_area = 0 ∧
    get_size_ratio
      (mkAnalysis ((0 : ℝ), (-180 : ℝ)) 0 ((1 : ℝ), (180 : ℝ)) ((-1 : ℝ), (180 : ℝ)) 0) =
      none := by
  have hcorner : 0 < haversine ((0 : ℝ), (-180 : ℝ)) ((-1 : ℝ), (180 : ℝ)) := by
    apply haversine_pos
    simp only [deg2rad]
    have e1 : ((-1 : ℝ) - 0) * (Real.pi / 180) / 2 = -(Real.pi / 360) := by ring
    have e2 : ((180 : ℝ) - (-180)) * (Real.pi / 180) / 2 = Real.pi := by ring
    rw [e1, e2]
    have hs : 0 < Real.sin (Real.pi / 360) :=
      Real.sin_pos_of_pos_of_lt_pi (by positivity) (by nlinarith [Real.pi_pos])
    simp only [Real.sin_pi, Real.sin_neg]
    nlinarith [hs]
  have hric : ¬ rect_inside_circle_cond ((0 : ℝ), (-180 : ℝ)) 0 ((1 : ℝ), (180 : ℝ))
      ((-1 : ℝ), (180 : ℝ)) := by
    intro h
    have := h ((-1 : ℝ), (180 : ℝ)) (by simp [rectCorners])
    linarith
  have hcir : ¬ circle_inside_rect_cond ((0 : ℝ), (-180 : ℝ)) 0 ((1 : ℝ), (180 : ℝ))
      ((-1 : ℝ), (180 : ℝ)) := by
    intro h
    have := h.1.2.1
    norm_num at this
  have hd0 : haversine ((0 : ℝ), (-180 : ℝ))
      (rect_center ((1 : ℝ), (180 : ℝ)) ((-1 : ℝ), (180 : ℝ))) = 0 := by
    have hrc : rect_center ((1 : ℝ), (180 : ℝ)) ((-1 : ℝ), (180 : ℝ)) =
        ((0 : ℝ), (180 : ℝ)) := by
      simp only [rect_center]
      norm_num
    rw [hrc]
    simp only [haversine, deg2rad]
    have e1 : ((0 : ℝ) - 0) * (Real.pi / 180) / 2 = 0 := by ring
    have e2 : ((180 : ℝ) - (-180)) * (Real.pi / 180) / 2 = Real.pi := by ring
    rw [e1, e2]
    simp
  have hst : (mkAnalysis ((0 : ℝ), (-180 : ℝ)) 0 ((1 : ℝ), (180 : ℝ)) ((-1 : ℝ), (180 : ℝ))
      0).status = IStatus.intersecting := by
    rw [mkAnalysis_status, if_neg hric, if_neg hcir, if_neg]
    rw [hd0]
    norm_num
  have hca : (mkAnalysis ((0 : ℝ), (-180 : ℝ)) 0 ((1 : ℝ), (180 : ℝ)) ((-1 : ℝ), (180 : ℝ))
      0).circle_area = 0 := by
    rw [mkAnalysis_circle_area]
    norm_num
  refine ⟨hst, hca, ?_⟩
  unfold get_size_ratio
  rw [if_pos hst, hca, pydiv, if_pos rfl]

/-- location.py GeoTraits.T_POI. -/
def T_POI : String := "point_of_interest"

/-- location.py GeoTraits.T_LOCALITY. -/
def T_LOCALITY : String := "locality"

/-- location.py GeoTraits.T_TOURIST_ATTRACTION. -/
def T_TOURIST_ATTRACTION : String := "tourist_attraction"

/-- location.py GeoTraits.INTERESTING_TYPES, in priority order. -/
def INTERESTING_TYPES : List String := [T_TOURIST_ATTRACTION, T_POI, T_LOCALITY]

/-- One entry of the normalized address chain: component name and type tags
(location.py AddressSegment). -/
structure AddressSegment where
  name : String
  types : List String

/-- location.py GeoTraits after construction, restricted to the fields that
get_place_name and get_place_score read: the type tags, the optional primary
type (gplaces only, else None), the display name, the normalized address
chain, and the intersection analysis computed against the owning cluster's
circle. -/
structure GeoTraits where
  types : List String
  primary_type : Option String
  display_name : String
  address_chain : List AddressSegment
  intersection_analysis : IAnalysis

/-- Python truthiness of a str: False exactly for the empty string. -/
def truthyStr (s : String) : Bool := !(s == "")

/-- Python truthiness of an optional str value (None or a str). -/
def truthyOpt (o : Option String) : Bool :=
  match o with
  | some s => truthyStr s
  | none => false

/-- The membership test self.primary_type in GeoTraits.INTERESTING_TYPES
(None is a member of no list of strings). -/
def primaryInteresting (t : GeoTraits) : Bool :=
  match t.primary_type with
  | some tp => INTERESTING_TYPES.contains tp
  | none => false

/-- get_place_name's local helper _p: the name of the first address-chain
component whose type tags contain the given type, None when no component
matches. -/
def addr_first (t : GeoTraits) (tp : String) : Option String :=
  (t.address_chain.find? fun c => c.types.contains tp).map fun c => c.name

/-- location.py GeoTraits.get_place_name, the nested next(...) chain: the
display name when truthy and the primary type is interesting; else the
match of the first interesting type that is also one of the candidate's own
types and has a truthy address-chain match; else the match of the first
interesting type with a truthy address-chain match; else None. -/
def get_place_name (t : GeoTraits) : Option String :=
  if truthyStr t.display_name && primaryInteresting t then some t.display_name
  else
    match (INTERESTING_TYPES.find? fun it =>
        t.types.contains it && truthyOpt (addr_first t it)).bind (addr_first t) with
    | some n => some n
    | none =>
      (INTERESTING_TYPES.find? fun it => truthyOpt (addr_first t it)).bind (addr_first t)

/-- Modelled on the claim's wording for steps 2 and 3 of the resolution
chain: scan the interesting types in priority order; for each, look up the
first address-chain component name tagged with that type; when restricted,
skip types that do not also appear in the candidate's own type list; return
the first non-null (truthy) match. -/
def scanInteresting (t : GeoTraits) (restricted : Bool) : List String → Option String
  | [] => none
  | it :: rest =>
    if (!restricted || t.types.contains it) && truthyOpt (addr_first t it) then
      addr_first t it
    else scanInteresting t restricted rest

theorem scan_restricted_eq (t : GeoTraits) (l : List String) :
    scanInteresting t true l =
      (l.find? fun it => t.types.contains it && truthyOpt (addr_first t it)).bind
        (addr_first t) := by
  induction l with
  | nil => rfl
  | cons it rest ih =>
    simp only [scanInteresting, Bool.not_true, Bool.false_or, List.find?_cons]
    cases h : t.types.contains it && truthyOpt (addr_first t it)
    · rw [if_neg (show ¬(false = true) by decide)]
      exact ih
    · rw [if_pos (show true = true from rfl)]
      rfl

theorem scan_unrestricted_eq (t : GeoTraits) (l : List String) :
    scanInteresting t false l =
      (l.find? fun it => truthyOpt (addr_first t it)).bind (addr_first t) := by
  induction l with
  | nil => rfl
  | cons it rest ih =>
    simp only [scanInteresting, Bool.not_false, Bool.true_or, Bool.true_and, List.find?_cons]
    cases h : truthyOpt (addr_first t it)
    · rw [if_neg (show ¬(false = true) by decide)]
      exact ih
    · rw [if_pos (show true = true from rfl)]
      rfl

/-- A concrete gplaces candidate whose primary type is tourist_attraction
and whose display name is Eiffel Tower, with a nonempty address chain the
resolution must not consult. -/
noncomputable def eiffelTowerExample : GeoTraits where
  types := [T_TOURIST_ATTRACTION, T_POI]
  primary_type := some T_TOURIST_ATTRACTION
  display_name := "Eiffel Tower"
  address_chain := [{ name := "Paris", types := [T_LOCALITY] }]
  intersection_analysis :=
    mkAnalysis ((48 : ℝ), (2 : ℝ)) 100 ((49 : ℝ), (3 : ℝ)) ((48 : ℝ), (2 : ℝ)) 0

/-- C8: get_place_name resolves, first non-null (truthy) winning, as (1) the
candidate's own display name, only if its primary type is interesting; (2)
else the priority-ordered address-chain scan restricted to the candidate's
own type list; (3) else the same scan unrestricted; (4) else None -- and in
particular the Eiffel Tower candidate resolves to its display name without
consulting the address chain. -/
theorem place_name_resolution_order (t : GeoTraits) :
    (get_place_name t =
      Option.orElse
        (if primaryInteresting t && truthyStr t.display_name then some t.display_name
          else none)
        fun _ =>
          Option.orElse (scanInteresting t true INTERESTING_TYPES) fun _ =>
            scanInteresting t false INTERESTING_TYPES) ∧
    get_place_name eiffelTowerExample = some "Eiffel Tower" := by
  constructor
  · unfold get_place_name
    rw [scan_restricted_eq, scan_unrestricted_eq]
    by_cases h : (truthyStr t.display_name && primaryInteresting t) = true
    · rw [if_pos h, if_pos (by rw [Bool.and_comm]; exact h)]
      rfl
    · rw [if_neg h, if_neg (by rw [Bool.and_comm]; exact h)]
      rcases hfind : (INTERESTING_TYPES.find? fun it =>
          t.types.contains it && truthyOpt (addr_first t it)).bind (addr_first t) with
        _ | n
      · rfl
      · rfl
  · rfl

/-- get_place_score's local helper x_score: when the given type tag is
interesting, base * 10 * (len(INTERESTING_TYPES) - its 0-based priority
index), else 0; the primary type may be None, which is in no list. -/
noncomputable def x_score (base : ℝ) (tp : Option String) : ℝ :=
  match tp with
  | some s =>
    if INTERESTING_TYPES.contains s then
      base * 10 * ((INTERESTING_TYPES.length : ℝ) - ((INTERESTING_TYPES.indexOf s : ℕ) : ℝ))
    else 0
  | none => 0

/-- location.py GeoTraits.get_place_score before the optional factor
modulation: the primary-type contribution with base 1000, plus one
contribution with base 100 per candidate type tag, plus one with base 10
per interesting address-chain type tag. -/
noncomputable def base_place_score (t : GeoTraits) : ℝ :=
  x_score 1000 t.primary_type
    + (t.types.map fun ty => x_score 100 (some ty)).sum
    + (t.address_chain.map fun c =>
        (c.types.map fun ty =>
          if INTERESTING_TYPES.contains ty then x_score 10 (some ty) else 0).sum).sum

open Classical in
/-- location.py GeoTraits.get_place_score(use_size_factor,
use_center_factor): the base score, multiplied by the size factor and then
by the center factor when the respective flag is set (each factor can
raise, hence the Option). -/
noncomputable def get_place_score (t : GeoTraits)
    (use_size_factor use_center_factor : Bool) : Option ℝ :=
  (if use_size_factor then
      (get_size_factor t.intersection_analysis).map fun f => base_place_score t * f
    else some (base_place_score t)).bind fun s =>
    if use_center_factor then
      (get_center_factor t.intersection_analysis).map fun f => s * f
    else some s

theorem get_place_score_base (t : GeoTraits) :
    get_place_score t false false = some (base_place_score t) := rfl

theorem x_score_tourist_attraction :
    x_score 1000 (some T_TOURIST_ATTRACTION) = 1000 * 10 * (3 - 0) := by
  simp [x_score, INTERESTING_TYPES, T_TOURIST_ATTRACTION, T_POI, T_LOCALITY,
    List.indexOf_cons_self]

theorem x_score_locality :
    x_score 1000 (some T_LOCALITY) = 1000 * 10 * (3 - 2) := by
  simp [x_score, INTERESTING_TYPES, T_TOURIST_ATTRACTION, T_POI, T_LOCALITY,
    List.indexOf_cons_self, List.indexOf_cons_ne]

/-- C9: two candidates identical in every attribute except the primary type
score strictly higher for tourist_attraction than for locality (size and
center modulation off, the shared factors being the flags' business): the
primary-type base contribution is 1000 * 10 * (3 - priorityIndex) over
[tourist_attraction, point_of_interest, locality], 30000 against 10000,
every other contribution being shared. -/
theorem score_tourist_attraction_gt_locality (types : List String) (dn : String)
    (chain : List AddressSegment) (ia : IAnalysis) :
    ∃ a b : ℝ,
      get_place_score
        { types := types, primary_type := some T_TOURIST_ATTRACTION, display_name := dn,
          address_chain := chain, intersection_analysis := ia } false false = some a ∧
      get_place_score
        { types := types, primary_type := some T_LOCALITY, display_name := dn,
          address_chain := chain, intersection_analysis := ia } false false = some b ∧
      b < a ∧
      x_score 1000 (some T_TOURIST_ATTRACTION) = 1000 * 10 * (3 - 0) ∧
      x_score 1000 (some T_LOCALITY) = 1000 * 10 * (3 - 2) := by
  refine ⟨_, _, get_place_score_base _, get_place_score_base _, ?_,
    x_score_tourist_attraction, x_score_locality⟩
  simp only [base_place_score]
  rw [x_score_tourist_attraction, x_score_locality]
  norm_num

end PyScripts
